import Mathlib

/-!
Shallow embedding of the rule-based clinical feature extractor of
`scripts/nlp_extraction.py` (class `MetHbExtractor`) from the repository
`methemoglobinemia-nlp-analysis`.

Modelling conventions:
* a Python string is a `List Char`; `str.lower()` is `Char.toLower` (the inputs
  appearing in the claims are ASCII, where the two agree);
* Python floats produced by `float(...)` on substrings matched by `\d+\.?\d*`
  are modelled exactly by `ℚ` (every such literal is an exact decimal);
* each regular expression of the source is compiled by hand into a
  deterministic matcher.  The determinizations are justified locally: wherever
  a greedy/lazy quantifier could in principle backtrack, the character sets
  involved are disjoint, so maximal munch (for greedy pieces) and
  earliest-continuation scanning (for lazy pieces) coincide with Python's
  backtracking search.  Comments on each matcher record the original pattern.
* `re.findall` collects the single capture group of each non-overlapping match,
  scanning left to right and resuming after each match end.
-/

namespace MetHb

/-- Python `str.lower()` (ASCII case mapping). -/
def lowerStr (s : List Char) : List Char := s.map Char.toLower

/-- Literal-prefix test on character lists. -/
def isPre : List Char → List Char → Bool
  | [], _ => true
  | _ :: _, [] => false
  | a :: al, b :: bl => a == b && isPre al bl

/-- Python substring containment `needle in haystack`. -/
def containsSub (w : List Char) : List Char → Bool
  | [] => isPre w []
  | c :: t => isPre w (c :: t) || containsSub w t

/-- Python whitespace class `\s` (ASCII part). -/
def isSpaceC (c : Char) : Bool :=
  c == ' ' || c == '\t' || c == '\n' || c == '\x0d' || c == '\x0c' || c == '\x0b'

/-- Maximal run of decimal digits: the greedy `\d+` / `\d*`. -/
def takeDigits : List Char → List Char × List Char
  | [] => ([], [])
  | c :: t =>
    if c.isDigit then
      let r := takeDigits t
      (c :: r.1, r.2)
    else ([], c :: t)

/-- Skip the maximal run of whitespace: the greedy `\s*`. -/
def dropSpaces : List Char → List Char
  | [] => []
  | c :: t => if isSpaceC c then dropSpaces t else c :: t

/-- Python `int` on a digit string. -/
def natOfDigits (dl : List Char) : Nat :=
  dl.foldl (fun a c => 10 * a + (c.toNat - 48)) 0

/-- Python `float` on a string of shape `\d+\.?\d*`, as an exact rational. -/
def parseRat (g : List Char) : ℚ :=
  let ip := takeDigits g
  match ip.2 with
  | '.' :: fp => (natOfDigits ip.1 : ℚ) + (natOfDigits (takeDigits fp).1 : ℚ) / (10 : ℚ) ^ (takeDigits fp).1.length
  | _ => (natOfDigits ip.1 : ℚ)

/-- Matcher for `(\d+\.?\d*)\s*%` anchored at the head of the input; returns
the capture group and the rest after `%`.  Deterministic: digits, `.`, spaces
and `%` are pairwise disjoint character sets, so greedy backtracking never
changes the outcome, and when the optional `.` is present but the tail fails,
dropping the `.` (the regex fallback) provably fails as well. -/
def pctMatch (s : List Char) : Option (List Char × List Char) :=
  let p1 := takeDigits s
  if p1.1.isEmpty then none
  else
    match p1.2 with
    | '.' :: r2 =>
      let p2 := takeDigits r2
      match dropSpaces p2.2 with
      | '%' :: r5 => some (p1.1 ++ '.' :: p2.1, r5)
      | _ => none
    | r1 =>
      match dropSpaces r1 with
      | '%' :: r5 => some (p1.1, r5)
      | _ => none

/-- Lazy scan `[^.]*?` followed by the percent matcher: try the continuation at
each position, advancing while the current character is not `.` (which the
lazy star may not consume). -/
def scanPct : List Char → Option (List Char × List Char)
  | [] => none
  | c :: t =>
    match pctMatch (c :: t) with
    | some r => some r
    | none => if c == '.' then none else scanPct t

/-- First alternative of `alts` matching at the head; returns the rest. -/
def firstAlt (alts : List (List Char)) (s : List Char) : Option (List Char) :=
  match alts.find? (fun a => isPre a s) with
  | some a => some (s.drop a.length)
  | none => none

/-- Lazy scan `[^.]*?` followed by an ordered alternation of literal keywords.
All keyword sets used below have pairwise distinct first characters, so at most
one alternative matches at a position, and a failing continuation after the
earliest keyword also fails after any later one (both continuations are scans
over a suffix of the same sentence segment), so no backtracking is needed. -/
def scanKw (alts : List (List Char)) : List Char → Option (List Char)
  | [] => none
  | c :: t =>
    match firstAlt alts (c :: t) with
    | some r => some r
    | none => if c == '.' then none else scanKw alts t

/-- `re.findall` driver: try the matcher at every position, resume after each
match end.  Every matcher below consumes at least one character on success, so
fuel `s.length` is sufficient. -/
def findallGo (m : List Char → Option (List Char × List Char)) : Nat → List Char → List (List Char)
  | 0, _ => []
  | _ + 1, [] => []
  | f + 1, c :: t =>
    match m (c :: t) with
    | some (g, rest) => g :: findallGo m f rest
    | none => findallGo m f t

def findallP (m : List Char → Option (List Char × List Char)) (s : List Char) : List (List Char) :=
  findallGo m s.length s

/-- Keywords of pattern 1: `(?:level|concentration|measured|was|of|at)`. -/
def kwSet1 : List (List Char) :=
  ["level".toList, "concentration".toList, "measured".toList, "was".toList, "of".toList, "at".toList]

/-- Keywords of pattern 2: `(?:level|concentration|was|of|at)`. -/
def kwSet2 : List (List Char) :=
  ["level".toList, "concentration".toList, "was".toList, "of".toList, "at".toList]

/-- Pattern `methemoglobin[^.]*?(?:level|concentration|measured|was|of|at)[^.]*?(\d+\.?\d*)\s*%`. -/
def pat1 (s : List Char) : Option (List Char × List Char) :=
  if isPre ("methemoglobin").toList s then
    match scanKw kwSet1 (s.drop 13) with
    | some r => scanPct r
    | none => none
  else none

/-- Pattern `meth(?:b|Hb)[^.]*?(?:level|concentration|was|of|at)[^.]*?(\d+\.?\d*)\s*%`. -/
def pat2 (s : List Char) : Option (List Char × List Char) :=
  if isPre ("meth").toList s then
    let r0 := s.drop 4
    let r1 : Option (List Char) :=
      if isPre ("b").toList r0 then some (r0.drop 1)
      else if isPre ("Hb").toList r0 then some (r0.drop 2)
      else none
    match r1 with
    | some r =>
      match scanKw kwSet2 r with
      | some r2 => scanPct r2
      | none => none
    | none => none
  else none

/-- Pattern `methb[^.]*?(\d+\.?\d*)\s*%`. -/
def pat3 (s : List Char) : Option (List Char × List Char) :=
  if isPre ("methb").toList s then scanPct (s.drop 5) else none

/-- Pattern `(\d+\.?\d*)\s*%\s*methemoglobin`. -/
def pat4 (s : List Char) : Option (List Char × List Char) :=
  match pctMatch s with
  | some (g, r) =>
    let r2 := dropSpaces r
    if isPre ("methemoglobin").toList r2 then some (g, r2.drop 13) else none
  | none => none

/-- Pattern `measured\s+(?:at\s+)?(\d+\.?\d*)\s*%`.  If the optional `at\s+`
matches but the number fails afterwards, the regex fallback (skipping the
optional group) would have to read a digit at the letter `a`, so it fails
too; the single path below is therefore faithful. -/
def pat5 (s : List Char) : Option (List Char × List Char) :=
  if isPre ("measured").toList s then
    match s.drop 8 with
    | c :: t =>
      if isSpaceC c then
        let r1 := dropSpaces t
        let r2 :=
          if isPre ("at").toList r1 then
            match r1.drop 2 with
            | d :: u => if isSpaceC d then dropSpaces u else r1
            | [] => r1
          else r1
        pctMatch r2
      else none
    | [] => none
  else none

def methPatterns : List (List Char → Option (List Char × List Char)) :=
  [pat1, pat2, pat3, pat4, pat5]

/-- One collected match: `level = float(match)`, kept when `0 < level <= 100`
(`try/except` cannot fire: every captured string parses). -/
def toLevel (g : List Char) : Option ℚ :=
  if 0 < parseRat g ∧ parseRat g ≤ 100 then some (parseRat g) else none

/-- All surviving levels, patterns applied in order over the lowercased text. -/
def methAllLevels (text : List Char) : List ℚ :=
  ((methPatterns.map (fun m => findallP m (lowerStr text))).flatten).filterMap toLevel

/-- `MetHbExtractor.extract_meth_level`: the maximum surviving level, else `None`. -/
def extract_meth_level (text : List Char) : Option ℚ :=
  match methAllLevels text with
  | [] => none
  | x :: xl => some (xl.foldl max x)

/-! ### Case-section isolation (`extract_case_section`) -/

/-- Chained search for segments separated by `.*` gaps (regex dot excludes a
newline, so every gap character must differ from `'\n'`); `true` iff the
segments occur in order from the head of the input with newline-free gaps.
The fuel decreases on every step while `segs.length + s.length` does, so any
fuel of at least `s.length + segs.length + 1` is exact. -/
def seekSegsF : Nat → List (List Char) → List Char → Bool
  | _, [], _ => true
  | 0, _ :: _, _ => false
  | f + 1, seg :: rest, s =>
    match s with
    | [] => false
    | c :: t =>
      (isPre seg s && seekSegsF f rest (s.drop seg.length)) ||
      (!(c == '\n') && seekSegsF f (seg :: rest) t)

/-- Index of the first suffix satisfying `p` (leftmost match start). -/
def scanIdx (p : List Char → Bool) : List Char → Option Nat
  | [] => if p [] then some 0 else none
  | c :: t => if p (c :: t) then some 0 else (scanIdx p t).map (fun i => i + 1)

/-- `re.search` start position of a literal marker. -/
def findSubIdx (w : List Char) (s : List Char) : Option Nat :=
  scanIdx (fun r => isPre w r) s

/-- `re.search` start position of a marker `a.*year.*old.*TAIL`. -/
def ayoSearch (tail : List Char) (s : List Char) : Option Nat :=
  scanIdx (fun r =>
    match r with
    | c :: t => c == 'a' && seekSegsF (t.length + 4) [("year").toList, ("old").toList, tail] t
    | [] => false) s

/-- The case markers of `extract_case_section`, in source order. -/
inductive CaseMarker where
  | lit (w : String)
  | ayo (tail : String)

def caseMarkers : List CaseMarker :=
  [CaseMarker.lit ("case presentation"), CaseMarker.lit ("case report"),
   CaseMarker.lit ("case description"),
   CaseMarker.ayo ("patient"), CaseMarker.ayo ("man"), CaseMarker.ayo ("woman"),
   CaseMarker.lit ("patient presented"), CaseMarker.lit ("we report"),
   CaseMarker.lit ("we present")]

def searchMarker (m : CaseMarker) (s : List Char) : Option Nat :=
  match m with
  | CaseMarker.lit w => findSubIdx w.toList s
  | CaseMarker.ayo tl => ayoSearch tl.toList s

/-- One iteration of the `case_start = max(case_start, match.start())` loop. -/
def markerStep (tl : List Char) (cs : Nat) (m : CaseMarker) : Nat :=
  match searchMarker m tl with
  | some i => max cs i
  | none => cs

/-- `case_start` after the marker loop of `extract_case_section`. -/
def caseStartPos (text : List Char) : Nat :=
  caseMarkers.foldl (markerStep (lowerStr text)) 0

/-- First occurrence positions of the markers that match at all (used only to
state properties; the source keeps just their running maximum). -/
def markerStarts (text : List Char) : List Nat :=
  caseMarkers.filterMap (fun m => searchMarker m (lowerStr text))

/-- `MetHbExtractor.extract_case_section`. -/
def extract_case_section (text : List Char) : List Char :=
  if caseStartPos text > 0 then text.drop (caseStartPos text)
  else text.take (text.length / 2)

/-! ### Trigger extraction (`extract_trigger`) -/

def triggersTable : List (String × List String) :=
  [("Acetaminophen", ["acetaminophen", "paracetamol", "apap", "tylenol"]),
   ("Benzocaine", ["benzocaine", "hurricane spray", "orajel"]),
   ("Dapsone", ["dapsone", "aczone"]),
   ("Lidocaine", ["lidocaine", "xylocaine", "lignocaine"]),
   ("Nitrates", ["nitrate", "nitrite", "sodium nitrite", "nitrous"]),
   ("Phenazopyridine", ["phenazopyridine", "pyridium", "azo"]),
   ("Aniline", ["aniline dye", "aniline"]),
   ("Metoclopramide", ["metoclopramide", "reglan"]),
   ("Primaquine", ["primaquine"]),
   ("Sulfonamides", ["sulfamethoxazole", "trimethoprim", "sulfa"]),
   ("Chloroquine", ["chloroquine"]),
   ("Rasburicase", ["rasburicase", "elitek"]),
   ("Genetic", ["genetic", "hereditary", "congenital", "nadh", "cytochrome b5", "familial"])]

def contextPhrases : List String :=
  ["after", "following", "induced by", "caused by", "due to",
   "secondary to", "associated with", "exposure to", "ingestion of",
   "overdose", "administration of", "use of", "received"]

/-- The f-string `f'{phrase}[^.{{0,50}}]{keyword}'` of the source renders the
braces literally, so the regex between phrase and keyword is the negated
one-character class `[^.{0,50}]`: exactly one character not among
`.`, `{`, `0`, `,`, `5`, `}`. -/
def cls50 (c : Char) : Bool :=
  !(c == '.' || c == '\x7b' || c == '0' || c == ',' || c == '5' || c == '\x7d')

/-- Likewise `f'{keyword}[^.{{0,30}}]{phrase}'` yields the one-character class
`[^.{0,30}]`. -/
def cls30 (c : Char) : Bool :=
  !(c == '.' || c == '\x7b' || c == '0' || c == ',' || c == '3' || c == '\x7d')

/-- `re.search(a + CLASS + b, s)` existence, for one-character classes. -/
def sepSearch (a : List Char) (ok : Char → Bool) (b : List Char) : List Char → Bool
  | [] => false
  | c :: t =>
    (isPre a (c :: t) &&
      (match (c :: t).drop a.length with
       | d :: r => ok d && isPre b r
       | [] => false)) || sepSearch a ok b t

/-- Context score of one keyword: base 1, then `+5` / `+3` for every context
phrase matching before / after it (both patterns tested per phrase). -/
def scoreKeyword (tl : List Char) (kw : String) : Nat :=
  contextPhrases.foldl (fun sc p =>
    let sc1 := if sepSearch p.toList cls50 kw.toList tl then sc + 5 else sc
    if sepSearch kw.toList cls30 p.toList tl then sc1 + 3 else sc1) 1

/-- `max_score` over the keywords of one trigger (0 when none occurs). -/
def triggerScore (tl : List Char) (kws : List String) : Nat :=
  kws.foldl (fun m kw => if containsSub kw.toList tl then max m (scoreKeyword tl kw) else m) 0

/-- The `trigger_scores` dict, in table insertion order. -/
def triggerScores (tl : List Char) : List (String × Nat) :=
  triggersTable.filterMap (fun p =>
    if triggerScore tl p.2 > 0 then some (p.1, triggerScore tl p.2) else none)

/-- Python `max(trigger_scores, key=trigger_scores.get)`: first maximal entry
in iteration order (strict comparison keeps the earlier one on ties). -/
def pickBest (p : String × Nat) (l : List (String × Nat)) : String × Nat :=
  l.foldl (fun best q => if q.2 > best.2 then q else best) p

/-- `MetHbExtractor.extract_trigger`. -/
def extract_trigger (text : List Char) : String :=
  match triggerScores (lowerStr (extract_case_section text)) with
  | [] => "Unknown"
  | p :: rest =>
    if (pickBest p rest).2 > 1 || (p :: rest).length == 1 then (pickBest p rest).1
    else "Unknown"

/-! ### Treatment / symptom extraction -/

def treatmentsTable : List (String × List String) :=
  [("Methylene Blue", ["methylene blue", "methylthioninium", "mb", "urolene blue"]),
   ("Vitamin C", ["vitamin c", "ascorbic acid", "ascorbate"]),
   ("Exchange Transfusion", ["exchange transfusion", "blood exchange"]),
   ("Oxygen", ["oxygen therapy", "supplemental oxygen", "high-flow oxygen"]),
   ("Supportive", ["supportive care", "observation", "conservative"])]

def symptomsTable : List (String × List String) :=
  [("Cyanosis", ["cyanosis", "cyanotic", "blue", "bluish"]),
   ("Dyspnea", ["dyspnea", "shortness of breath", "difficulty breathing", "respiratory distress"]),
   ("Altered Mental Status", ["confusion", "altered mental", "lethargy", "lethargic", "unconscious", "coma"]),
   ("Headache", ["headache", "head ache"]),
   ("Dizziness", ["dizziness", "dizzy", "lightheaded"]),
   ("Nausea", ["nausea", "vomiting", "nauseous"]),
   ("Seizure", ["seizure", "convulsion"]),
   ("Chest Pain", ["chest pain", "angina"])]

/-- Labels whose synonym list hits the text (inner `break` of the source makes
each label appear at most once, in table order). -/
def foundLabels (table : List (String × List String)) (tl : List Char) : List String :=
  (table.filter (fun p => p.2.any (fun kw => containsSub kw.toList tl))).map Prod.fst

def joinComma (l : List String) : String := String.intercalate (", ") l

/-- `MetHbExtractor.extract_treatment`. -/
def extract_treatment (text : List Char) : String :=
  if foundLabels treatmentsTable (lowerStr text) = [] then "Unknown"
  else joinComma (foundLabels treatmentsTable (lowerStr text))

/-- `MetHbExtractor.extract_symptoms`. -/
def extract_symptoms (text : List Char) : String :=
  if foundLabels symptomsTable (lowerStr text) = [] then "None specified"
  else joinComma (foundLabels symptomsTable (lowerStr text))

/-! ### Methylene-blue dose (`extract_methylene_blue_dose`) -/

/-- `\d+(?:\.\d+)?` with greedy optional fraction; returns capture and rest. -/
def numCore (s : List Char) : Option (List Char × List Char) :=
  let p1 := takeDigits s
  if p1.1.isEmpty then none
  else
    match p1.2 with
    | '.' :: r2 =>
      let p2 := takeDigits r2
      if p2.1.isEmpty then some (p1.1, p1.2)
      else some (p1.1 ++ '.' :: p2.1, p2.2)
    | r1 => some (p1.1, r1)

/-- Maximal whitespace run, kept (it belongs to the capture inside a range). -/
def takeSpacesPair : List Char → List Char × List Char
  | [] => ([], [])
  | c :: t =>
    if isSpaceC c then
      let r := takeSpacesPair t
      (c :: r.1, r.2)
    else ([], c :: t)

/-- Tail `\s*mg\s*/\s*kg` of the dose pattern. -/
def tailMgKg (s : List Char) : Bool :=
  let r1 := dropSpaces s
  if isPre ("mg").toList r1 then
    match dropSpaces (r1.drop 2) with
    | '/' :: r3 => isPre ("kg").toList (dropSpaces r3)
    | _ => false
  else false

/-- Matcher for `(\d+(?:\.\d+)?(?:\s*-\s*\d+(?:\.\d+)?)?)\s*mg\s*/\s*kg` at the
head of the input.  When the optional range part matches but `mg/kg` fails
afterwards, the regex fallback without the range would have to read `mg` at
whitespace or `-`, which fails as well, so the single path is faithful. -/
def doseMatch (s : List Char) : Option (List Char) :=
  match numCore s with
  | none => none
  | some (g1, r1) =>
    let sp1 := takeSpacesPair r1
    match sp1.2 with
    | '-' :: r =>
      let sp2 := takeSpacesPair r
      match numCore sp2.2 with
      | some (g2, r2) =>
        if tailMgKg r2 then some (g1 ++ sp1.1 ++ '-' :: (sp2.1 ++ g2)) else none
      | none => if tailMgKg r1 then some g1 else none
    | _ => if tailMgKg r1 then some g1 else none

/-- Leftmost search with an `Option`-valued matcher. -/
def searchO {α : Type} (m : List Char → Option α) : List Char → Option α
  | [] => m []
  | c :: t =>
    match m (c :: t) with
    | some v => some v
    | none => searchO m t

/-- `MetHbExtractor.extract_methylene_blue_dose` (`matches[0]` of `findall` is
the leftmost match's capture). -/
def extract_methylene_blue_dose (text : List Char) : Option String :=
  (searchO doseMatch (lowerStr text)).map (fun g => String.mk g)

/-! ### Demographics (`extract_demographics`) -/

/-- The dash class `[-–]` of the first age pattern (hyphen or en dash). -/
def isDashChar (c : Char) : Bool := c == '-' || c == '–'

/-- The class `[-\s]`. -/
def isDashSpace (c : Char) : Bool := c == '-' || isSpaceC c

def headIs (c : Char) : List Char → Bool
  | [] => false
  | d :: _ => d == c

/-- Age pattern `(\d+)\s*[-–]\s*year[-\s]old` anchored at the head. -/
def age1At (s : List Char) : Option Nat :=
  let p := takeDigits s
  if p.1.isEmpty then none
  else
    match dropSpaces p.2 with
    | c :: r =>
      if isDashChar c then
        let r2 := dropSpaces r
        if isPre ("year").toList r2 then
          match r2.drop 4 with
          | d :: r3 => if isDashSpace d && isPre ("old").toList r3 then some (natOfDigits p.1) else none
          | [] => none
        else none
      else none
    | [] => none

/-- Age pattern `(\d+)\s*y(?:ear)?[-\s]?o(?:ld)?` anchored at the head; only
the captured digits matter, so the trailing optionals reduce to reaching an
`o`, with the greedy `(?:ear)?` tried first and its fallback second. -/
def age2At (s : List Char) : Option Nat :=
  let p := takeDigits s
  if p.1.isEmpty then none
  else
    match dropSpaces p.2 with
    | 'y' :: r =>
      let tailOk : List Char → Bool := fun x =>
        match x with
        | d :: r2 => (isDashSpace d && headIs 'o' r2) || d == 'o'
        | [] => false
      if (isPre ("ear").toList r && tailOk (r.drop 3)) || tailOk r then some (natOfDigits p.1)
      else none
    | _ => none

def clsColonSpace (c : Char) : Bool := c == ':' || isSpaceC c

def dropColonSpaces : List Char → List Char
  | [] => []
  | c :: t => if clsColonSpace c then dropColonSpaces t else c :: t

/-- Age pattern `age[:\s]+(\d+)` anchored at the head. -/
def age3At (s : List Char) : Option Nat :=
  if isPre ("age").toList s then
    match s.drop 3 with
    | c :: t =>
      if clsColonSpace c then
        let p := takeDigits (dropColonSpaces t)
        if p.1.isEmpty then none else some (natOfDigits p.1)
      else none
    | [] => none
  else none

/-- Age pattern `aged\s+(\d+)` anchored at the head. -/
def age4At (s : List Char) : Option Nat :=
  if isPre ("aged").toList s then
    match s.drop 4 with
    | c :: t =>
      if isSpaceC c then
        let p := takeDigits (dropSpaces t)
        if p.1.isEmpty then none else some (natOfDigits p.1)
      else none
    | [] => none
  else none

/-- The age loop: patterns tried in order, `break` on the first that matches. -/
def extract_age (tl : List Char) : Option Nat :=
  match searchO age1At tl with
  | some v => some v
  | none =>
    match searchO age2At tl with
    | some v => some v
    | none =>
      match searchO age3At tl with
      | some v => some v
      | none => searchO age4At tl

/-- Python word character `\w` (ASCII part). -/
def isWordChar (c : Char) : Bool := c.isAlphanum || c == '_'

def boundaryOk : List Char → Bool
  | [] => true
  | c :: _ => !(isWordChar c)

/-- Scan for `\bWORD\b`, carrying whether the previous character is a word
character. -/
def hasWordGo (w : List Char) : Bool → List Char → Bool
  | prevW, [] => !prevW && isPre w [] && boundaryOk []
  | prevW, c :: t =>
    (!prevW && isPre w (c :: t) && boundaryOk ((c :: t).drop w.length)) ||
    hasWordGo w (isWordChar c) t

def hasWord (w : String) (s : List Char) : Bool := hasWordGo w.toList false s

/-- The gender cascade of `extract_demographics`, over the first 500 characters
of the lowercased text. -/
def extract_gender (tl : List Char) : Option String :=
  let introPart := tl.take 500
  if hasWord ("male") introPart && !(hasWord ("female") introPart) then some ("Male")
  else if hasWord ("female") introPart then some ("Female")
  else if hasWord ("man") introPart || hasWord ("men") introPart || hasWord ("boy") introPart then
    some ("Male")
  else if hasWord ("woman") introPart || hasWord ("women") introPart || hasWord ("girl") introPart then
    some ("Female")
  else none

/-- `MetHbExtractor.extract_demographics`. -/
def extract_demographics (text : List Char) : Option Nat × Option String :=
  (extract_age (lowerStr text), extract_gender (lowerStr text))

/-! ### Outcome, exposure route, G6PD, time to improvement -/

def containsAny (ws : List String) (tl : List Char) : Bool :=
  ws.any (fun w => containsSub w.toList tl)

/-- `MetHbExtractor.extract_outcome`. -/
def extract_outcome (text : List Char) : String :=
  if containsAny ["recovered", "discharged", "improved", "resolved", "uneventful recovery"] (lowerStr text) then "Recovered"
  else if containsAny ["died", "death", "fatal", "expired", "mortality"] (lowerStr text) then "Fatal"
  else if containsAny ["transferred", "admitted"] (lowerStr text) then "Admitted"
  else "Unknown"

def routesTable : List (String × List String) :=
  [("Topical", ["topical", "spray", "applied", "gel"]),
   ("Oral", ["oral", "ingested", "swallowed", "po"]),
   ("Intravenous", ["intravenous", "iv", "infusion"]),
   ("Inhalation", ["inhaled", "inhalation", "gas"]),
   ("Subcutaneous", ["subcutaneous", "sc", "subq"])]

/-- `MetHbExtractor.extract_exposure_route`: first route (in table order) with
any synonym present. -/
def extract_exposure_route (text : List Char) : String :=
  match routesTable.find? (fun p => p.2.any (fun kw => containsSub kw.toList (lowerStr text))) with
  | some p => p.1
  | none => "Unknown"

/-- `MetHbExtractor.extract_g6pd_status`. -/
def extract_g6pd_status (text : List Char) : String :=
  if containsSub ("g6pd").toList (lowerStr text) || containsSub ("g-6-pd").toList (lowerStr text)
      || containsSub ("glucose-6-phosphate dehydrogenase").toList (lowerStr text) then
    if containsSub ("deficiency").toList (lowerStr text) || containsSub ("deficient").toList (lowerStr text) then "Deficient"
    else if containsSub ("normal").toList (lowerStr text) then "Normal"
    else "Mentioned"
  else "Not mentioned"

def timeUnits : List (List Char) :=
  ["hour".toList, "hr".toList, "minute".toList, "min".toList]

/-- Tail `\s+(?:within|after|in)\s+(\d+)\s*(hour|hr|minute|min)` of the first
time pattern; ordered alternations are tried with full continuations, which
realizes the regex backtracking. -/
def timeTail1 (r : List Char) : Option (List Char × List Char) :=
  match r with
  | c :: t =>
    if isSpaceC c then
      let r1 := dropSpaces t
      (["within".toList, "after".toList, "in".toList]).findSome? (fun w =>
        if isPre w r1 then
          match r1.drop w.length with
          | d :: u =>
            if isSpaceC d then
              let p := takeDigits (dropSpaces u)
              if p.1.isEmpty then none
              else
                let r3 := dropSpaces p.2
                timeUnits.findSome? (fun un => if isPre un r3 then some (p.1, un) else none)
            else none
          | [] => none
        else none)
    else none
  | [] => none

/-- Pattern `(?:improved|improvement|resolved|resolution)\s+(?:within|after|in)\s+(\d+)\s*(hour|hr|minute|min)`
anchored at the head. -/
def t1At (s : List Char) : Option (List Char × List Char) :=
  (["improved".toList, "improvement".toList, "resolved".toList, "resolution".toList]).findSome?
    (fun v => if isPre v s then timeTail1 (s.drop v.length) else none)

/-- Pattern `(\d+)\s*(hour|hr|minute|min)\s+(?:after|post)\s+(?:treatment|administration)`
anchored at the head. -/
def t2At (s : List Char) : Option (List Char × List Char) :=
  let p := takeDigits s
  if p.1.isEmpty then none
  else
    let r1 := dropSpaces p.2
    timeUnits.findSome? (fun un =>
      if isPre un r1 then
        match r1.drop un.length with
        | c :: t =>
          if isSpaceC c then
            let r2 := dropSpaces t
            (["after".toList, "post".toList]).findSome? (fun w =>
              if isPre w r2 then
                match r2.drop w.length with
                | d :: u =>
                  if isSpaceC d then
                    let r3 := dropSpaces u
                    if isPre ("treatment").toList r3 || isPre ("administration").toList r3 then
                      some (p.1, un)
                    else none
                  else none
                | [] => none
              else none)
          else none
        | [] => none
      else none)

/-- `MetHbExtractor.extract_time_to_improvement`: `f"{number} {unit}"` of the
first matching pattern. -/
def extract_time_to_improvement (text : List Char) : Option String :=
  match searchO t1At (lowerStr text) with
  | some r => some (String.mk (r.1 ++ ' ' :: r.2))
  | none =>
    match searchO t2At (lowerStr text) with
    | some r => some (String.mk (r.1 ++ ' ' :: r.2))
    | none => none

/-! ### Data-quality score and the full record -/

/-- Python truthiness plus `value not in ['Unknown', 'None specified', None]`
for a string field (the empty string is falsy). -/
def truthyStr (v : String) : Bool :=
  !(v == "") && !(v == "Unknown") && !(v == "None specified")

/-- Same check for the float field: `None` and `0.0` are falsy. -/
def truthyOptQ (v : Option ℚ) : Bool :=
  match v with
  | none => false
  | some x => !(x == 0)

/-- Same check for the integer field: `None` and `0` are falsy. -/
def truthyOptNat (v : Option Nat) : Bool :=
  match v with
  | none => false
  | some n => !(n == 0)

def truthyOptStr (v : Option String) : Bool :=
  match v with
  | none => false
  | some s => truthyStr s

/-- Number of populated key fields, in the source's field order
`meth_level, trigger, treatment, age, gender, symptoms, outcome`. -/
def qualityCount (meth : Option ℚ) (trig treat : String) (age : Option Nat)
    (gend : Option String) (symp outc : String) : Nat :=
  ([truthyOptQ meth, truthyStr trig, truthyStr treat, truthyOptNat age,
    truthyOptStr gend, truthyStr symp, truthyStr outc].filter id).length

/-- `MetHbExtractor.calculate_data_quality_score`: `int((score / 7) * 100)`.
For `score ∈ [0, 7]` the float expression truncates exactly to
`score * 100 / 7` in integer (floor) division, which is what we embed. -/
def calculate_data_quality_score (meth : Option ℚ) (trig treat : String) (age : Option Nat)
    (gend : Option String) (symp outc : String) : Nat :=
  qualityCount meth trig treat age gend symp outc * 100 / 7

/-- The structured record produced per document. -/
structure CaseRecord where
  pmid : String
  meth_level : Option ℚ
  trigger : String
  trigger_route : String
  treatment : String
  mb_dose : Option String
  symptoms : String
  age : Option Nat
  gender : Option String
  g6pd_status : String
  time_to_improvement : Option String
  outcome : String
  data_quality_score : Nat

/-- `MetHbExtractor.extract_all_features`. -/
def extract_all_features (text : List Char) (pmid : String) : CaseRecord :=
  { pmid := pmid
    meth_level := extract_meth_level text
    trigger := extract_trigger text
    trigger_route := extract_exposure_route text
    treatment := extract_treatment text
    mb_dose := extract_methylene_blue_dose text
    symptoms := extract_symptoms text
    age := (extract_demographics text).1
    gender := (extract_demographics text).2
    g6pd_status := extract_g6pd_status text
    time_to_improvement := extract_time_to_improvement text
    outcome := extract_outcome text
    data_quality_score :=
      calculate_data_quality_score (extract_meth_level text) (extract_trigger text)
        (extract_treatment text) (extract_demographics text).1 (extract_demographics text).2
        (extract_symptoms text) (extract_outcome text) }

/-! ### Concrete input texts used by witnesses and counterexamples -/

/-- Example 1 of the specification. -/
def ex1Text : List Char := ("methemoglobin level was measured at 45%").toList

/-- Example 2 of the specification. -/
def exT5 : List Char :=
  ("A 34-year-old man presented after dapsone overdose. Methemoglobin 38%. Treated with methylene blue 1.5 mg/kg. He recovered fully.").toList

/-- Text whose markers occur at two distinct positive positions: `we report`
first at index 2, `case presentation` first at index 20. -/
def exT3 : List Char := ("x we report a case. case presentation: after dapsone exposure.").toList

/-- Text with a cause phrase 5 characters before a trigger synonym and a second
bare trigger synonym elsewhere. -/
def exT2 : List Char := ("z we report: induced by the dapsone. lidocaine was used.").toList

/-- Text whose only case marker match starts at index 0. -/
def exT10 : List Char := ("case presentation: severe cyanosis was noted").toList

/-- Text containing `methylene blue`. -/
def exT9 : List Char := ("the patient was given methylene blue").toList

/-! ## Helper lemmas -/

theorem isPre_iff (a : List Char) : ∀ b : List Char, isPre a b = true ↔ ∃ r, b = a ++ r := by
  induction a with
  | nil => intro b; simp [isPre]
  | cons c ct ih =>
    intro b
    cases b with
    | nil =>
      simp only [isPre]
      constructor
      · intro h; cases h
      · rintro ⟨r, hr⟩; cases hr
    | cons d dt =>
      simp only [isPre, Bool.and_eq_true, beq_iff_eq, ih dt]
      constructor
      · rintro ⟨rfl, r, rfl⟩
        exact ⟨r, rfl⟩
      · rintro ⟨r, hr⟩
        injection hr with h1 h2
        exact ⟨h1.symm, r, h2⟩

theorem containsSub_iff (w : List Char) : ∀ s : List Char,
    containsSub w s = true ↔ ∃ u v, s = u ++ w ++ v := by
  intro s
  induction s with
  | nil =>
    rw [show containsSub w [] = isPre w [] from rfl, isPre_iff]
    constructor
    · rintro ⟨r, hr⟩
      exact ⟨[], r, by simpa using hr⟩
    · rintro ⟨u, v, huv⟩
      rcases List.append_eq_nil.mp (List.append_eq_nil.mp huv.symm).1 with ⟨rfl, rfl⟩
      exact ⟨v, by simpa using huv⟩
  | cons c t ih =>
    simp only [containsSub, Bool.or_eq_true, isPre_iff, ih]
    constructor
    · rintro (⟨r, hr⟩ | ⟨u, v, rfl⟩)
      · exact ⟨[], r, by simpa using hr⟩
      · exact ⟨c :: u, v, by simp⟩
    · rintro ⟨u, v, huv⟩
      cases u with
      | nil => exact Or.inl ⟨v, by simpa using huv⟩
      | cons x xu =>
        injection huv with h1 h2
        exact Or.inr ⟨xu, v, h2⟩

theorem containsSub_trans {a b c : List Char} (h1 : containsSub a b = true)
    (h2 : containsSub b c = true) : containsSub a c = true := by
  rcases (containsSub_iff a b).mp h1 with ⟨u1, v1, rfl⟩
  rcases (containsSub_iff _ c).mp h2 with ⟨u2, v2, rfl⟩
  exact (containsSub_iff a _).mpr ⟨u2 ++ u1, v1 ++ v2, by simp⟩

theorem toLevel_sound {g : List Char} {v : ℚ} (h : toLevel g = some v) : 0 < v ∧ v ≤ 100 := by
  unfold toLevel at h
  split at h
  · cases h
    assumption
  · cases h

theorem foldl_max_pres : ∀ (l : List ℚ) (a : ℚ), 0 < a ∧ a ≤ 100 →
    (∀ x ∈ l, 0 < x ∧ x ≤ 100) → 0 < l.foldl max a ∧ l.foldl max a ≤ 100 := by
  intro l
  induction l with
  | nil => intro a ha _; simpa using ha
  | cons x xl ih =>
    intro a ha hl
    have hx : 0 < x ∧ x ≤ 100 := hl x (by simp)
    have hmax : 0 < max a x ∧ max a x ≤ 100 := by
      rcases max_choice a x with h | h <;> rw [h]
      · exact ha
      · exact hx
    exact ih (max a x) hmax (fun y hy => hl y (by simp [hy]))

theorem methAllLevels_sound (text : List Char) :
    ∀ y ∈ methAllLevels text, 0 < y ∧ y ≤ 100 := by
  intro y hy
  unfold methAllLevels at hy
  rcases List.mem_filterMap.mp hy with ⟨g, _, hg⟩
  exact toLevel_sound hg

/-! ## Claim C1 -/

/-- C1: the extracted methemoglobin level is the maximum of all numeric
pattern matches surviving the `(0, 100]` filter, hence `extract_meth_level`
is either `none` or a value `v` with `0 < v ≤ 100`. -/
theorem meth_level_in_range (text : List Char) (v : ℚ)
    (h : extract_meth_level text = some v) : 0 < v ∧ v ≤ 100 := by
  unfold extract_meth_level at h
  rcases hm : methAllLevels text with _ | ⟨x, xl⟩
  · rw [hm] at h
    cases h
  · rw [hm] at h
    have hall := methAllLevels_sound text
    rw [hm] at hall
    have hx := hall x (by simp)
    have hres := foldl_max_pres xl x hx (fun y hy => hall y (by simp [hy]))
    cases h
    exact hres

/-- Witness for C1 at Example 1 of the specification, where the extractor
returns `some 45`. -/
theorem meth_level_in_range_witness : 0 < (45 : ℚ) ∧ (45 : ℚ) ≤ 100 :=
  meth_level_in_range ex1Text 45 (by decide)

/-! ## Marker-fold lemmas -/

theorem foldl_markerStep_le (tl : List Char) :
    ∀ (l : List CaseMarker) (a : Nat), a ≤ l.foldl (markerStep tl) a := by
  intro l
  induction l with
  | nil => intro a; simp
  | cons m l' ih =>
    intro a
    refine le_trans ?_ (ih (markerStep tl a m))
    unfold markerStep
    cases searchMarker m tl with
    | none => exact le_refl a
    | some i => exact le_max_left a i

theorem foldl_markerStep_bound (tl : List Char) :
    ∀ (l : List CaseMarker) (a : Nat), ∀ m ∈ l, ∀ i, searchMarker m tl = some i →
      i ≤ l.foldl (markerStep tl) a := by
  intro l
  induction l with
  | nil => intro a m hm; cases hm
  | cons m0 l' ih =>
    intro a m hm i hi
    rw [List.foldl_cons]
    rcases List.mem_cons.mp hm with rfl | hm'
    · refine le_trans ?_ (foldl_markerStep_le tl l' (markerStep tl a m))
      unfold markerStep
      rw [hi]
      exact le_max_right a i
    · exact ih (markerStep tl a m0) m hm' i hi

theorem markerStep_eq_none {tl : List Char} {a : Nat} {m : CaseMarker}
    (hs : searchMarker m tl = none) : markerStep tl a m = a := by
  unfold markerStep
  rw [hs]

theorem markerStep_eq_some {tl : List Char} {a i : Nat} {m : CaseMarker}
    (hs : searchMarker m tl = some i) : markerStep tl a m = max a i := by
  unfold markerStep
  rw [hs]

theorem foldl_markerStep_attained (tl : List Char) :
    ∀ (l : List CaseMarker) (a : Nat), l.foldl (markerStep tl) a = a ∨
      ∃ m ∈ l, searchMarker m tl = some (l.foldl (markerStep tl) a) := by
  intro l
  induction l with
  | nil => intro a; exact Or.inl rfl
  | cons m0 l' ih =>
    intro a
    rw [List.foldl_cons]
    rcases ih (markerStep tl a m0) with h | ⟨m, hm, h⟩
    · cases hs : searchMarker m0 tl with
      | none =>
        rw [h, markerStep_eq_none hs]
        exact Or.inl rfl
      | some i =>
        rw [h, markerStep_eq_some hs]
        rcases max_choice a i with hmx | hmx
        · rw [hmx]
          exact Or.inl rfl
        · rw [hmx]
          exact Or.inr ⟨m0, by simp, hs⟩
    · exact Or.inr ⟨m, List.mem_cons_of_mem m0 hm, h⟩

/-! ## Claim C3 -/

/-- C3 counterexample: on `exT3` the marker `we report` first occurs at index 2
and `case presentation` at index 20; the claimed "earliest marker" rule would
return the suffix from index 2, but `extract_case_section` keeps the running
maximum of the match starts and returns the suffix from index 20. -/
theorem case_section_not_earliest :
    markerStarts exT3 = [20, 2] ∧
    extract_case_section exT3 = exT3.drop 20 ∧
    extract_case_section exT3 ≠ exT3.drop 2 := by
  refine ⟨by decide, by decide, by decide⟩

/-- C3 (amended): when any marker is found at a positive position, the result
is the contiguous suffix starting at the latest first-occurrence position among
all matching markers (the maximum, not the earliest); otherwise it is the first
half of the document.  In all cases the result is a contiguous suffix or the
prefix-half of the input. -/
theorem case_section_latest_marker (t : List Char) :
    (∀ m ∈ caseMarkers, ∀ i, searchMarker m (lowerStr t) = some i → i ≤ caseStartPos t) ∧
    (caseStartPos t = 0 ∨ ∃ m ∈ caseMarkers, searchMarker m (lowerStr t) = some (caseStartPos t)) ∧
    (0 < caseStartPos t → extract_case_section t = t.drop (caseStartPos t)) ∧
    (caseStartPos t = 0 → extract_case_section t = t.take (t.length / 2)) := by
  refine ⟨foldl_markerStep_bound _ _ 0, foldl_markerStep_attained _ _ 0, ?_, ?_⟩
  · intro h
    unfold extract_case_section
    rw [if_pos h]
  · intro h
    unfold extract_case_section
    rw [if_neg (by omega)]

/-- Witness for the amended C3: on `exT3` the start position is positive and
the result is the suffix from it. -/
theorem case_section_latest_marker_witness :
    extract_case_section exT3 = exT3.drop (caseStartPos exT3) :=
  (case_section_latest_marker exT3).2.2.1 (by decide)

/-! ## Claim C10 -/

/-- C10: when every marker either does not match or first matches at index 0,
`extract_case_section` falls back to the first half of the document. -/
theorem marker_at_zero_first_half (t : List Char)
    (h : ∀ m ∈ caseMarkers,
      searchMarker m (lowerStr t) = none ∨ searchMarker m (lowerStr t) = some 0) :
    extract_case_section t = t.take (t.length / 2) := by
  have h0 : caseStartPos t = 0 := by
    rcases foldl_markerStep_attained (lowerStr t) caseMarkers 0 with h' | ⟨m, hm, h'⟩
    · exact h'
    · rcases h m hm with hn | hs
      · rw [hn] at h'
        cases h'
      · rw [hs] at h'
        injection h' with he
        exact he.symm
  unfold extract_case_section
  rw [if_neg (by omega)]

/-- Witness for C10: a document starting with `case presentation` (its only
marker match, at index 0) yields the first half. -/
theorem marker_at_zero_first_half_witness :
    extract_case_section exT10 = exT10.take (exT10.length / 2) :=
  marker_at_zero_first_half exT10 (by decide)

/-! ## Claim C2 -/

/-- C2 (code-bug evaluation): in `exT2` the cause phrase `induced by` occurs
5 characters before the synonym `dapsone` inside the case section, yet both
detected triggers score only the base 1 (the f-string `{{0,50}}` turns the
intended `[^.]{0,50}` window into a one-character class), so the extractor
returns `Unknown` instead of the claimed `Dapsone`. -/
theorem trigger_one_char_window_eval :
    containsSub ("induced by the dapsone").toList (lowerStr (extract_case_section exT2)) = true ∧
    triggerScores (lowerStr (extract_case_section exT2)) = [("Dapsone", 1), ("Lidocaine", 1)] ∧
    extract_trigger exT2 = "Unknown" := by
  refine ⟨by decide, by decide, by decide⟩

/-! ## Claim C4 -/

theorem qualityCount_le7 (meth : Option ℚ) (trig treat : String) (age : Option Nat)
    (gend : Option String) (symp outc : String) :
    qualityCount meth trig treat age gend symp outc ≤ 7 := by
  unfold qualityCount
  exact le_trans (List.length_filter_le _ _) (by simp)

theorem natDiv_eq_floor (n : Nat) (h : n ≤ 7) :
    ((n * 100 / 7 : Nat) : ℤ) = ⌊((100 * (n : ℚ))) / 7⌋ := by
  interval_cases n <;>
  · rw [eq_comm, Int.floor_eq_iff]
    norm_num

/-- C4 counterexample: with exactly two populated key fields the code computes
`int((2 / 7) * 100) = 28`, while the claimed `round(100 × 2 / 7)` is 29. -/
theorem quality_score_not_round :
    qualityCount (some 38) ("Dapsone") ("Unknown") none none ("None specified") ("Unknown") = 2 ∧
    calculate_data_quality_score (some 38) ("Dapsone") ("Unknown") none none ("None specified") ("Unknown") = 28 ∧
    (round ((100 * (2 : ℚ)) / 7) : ℤ) = 29 := by
  refine ⟨by decide, by decide, ?_⟩
  rw [round_eq, Int.floor_eq_iff]
  norm_num

/-- C4 (amended): `data_quality_score` equals the floor (truncation), not the
rounding, of `100 × n / 7`, where `n` is the populated-field count, and it
always lies in `[0, 100]`. -/
theorem quality_score_floor (meth : Option ℚ) (trig treat : String) (age : Option Nat)
    (gend : Option String) (symp outc : String) :
    (calculate_data_quality_score meth trig treat age gend symp outc : ℤ) =
      ⌊((100 * (qualityCount meth trig treat age gend symp outc : ℚ))) / 7⌋ ∧
    calculate_data_quality_score meth trig treat age gend symp outc ≤ 100 := by
  have hb := qualityCount_le7 meth trig treat age gend symp outc
  constructor
  · exact natDiv_eq_floor _ hb
  · unfold calculate_data_quality_score
    have h1 : qualityCount meth trig treat age gend symp outc * 100 ≤ 700 := by omega
    have h2 : qualityCount meth trig treat age gend symp outc * 100 / 7 ≤ 700 / 7 :=
      Nat.div_le_div_right h1
    simpa using h2

/-! ## Vocabulary-closure lemmas -/

theorem pickBest_mem : ∀ (l : List (String × Nat)) (p : String × Nat), pickBest p l ∈ p :: l := by
  intro l
  induction l with
  | nil => intro p; simp [pickBest]
  | cons q r ih =>
    intro p
    have h := ih (if q.2 > p.2 then q else p)
    have e : pickBest p (q :: r) = pickBest (if q.2 > p.2 then q else p) r := rfl
    rw [e]
    rcases List.mem_cons.mp h with h1 | h1
    · rw [h1]
      split
      · exact List.mem_cons_of_mem p (List.mem_cons_self q r)
      · exact List.mem_cons_self p _
    · exact List.mem_cons_of_mem p (List.mem_cons_of_mem q h1)

theorem triggerScores_sub (tl : List Char) :
    ∀ q ∈ triggerScores tl, q.1 ∈ triggersTable.map Prod.fst := by
  intro q hq
  unfold triggerScores at hq
  rcases List.mem_filterMap.mp hq with ⟨p, hp, hf⟩
  split at hf
  · injection hf with he
    rw [← he]
    exact List.mem_map.mpr ⟨p, hp, rfl⟩
  · cases hf

theorem extract_trigger_closed (t : List Char) :
    extract_trigger t = "Unknown" ∨ extract_trigger t ∈ triggersTable.map Prod.fst := by
  rcases hs : triggerScores (lowerStr (extract_case_section t)) with _ | ⟨p, rest⟩
  · simp only [extract_trigger, hs]
    trivial
  · simp only [extract_trigger, hs]
    split
    · right
      have hmem := pickBest_mem rest p
      rw [← hs] at hmem
      exact triggerScores_sub _ _ hmem
    · exact Or.inl rfl

theorem foundLabels_sub (table : List (String × List String)) (tl : List Char) :
    ∀ x ∈ foundLabels table tl, x ∈ table.map Prod.fst := by
  intro x hx
  unfold foundLabels at hx
  rcases List.mem_map.mp hx with ⟨p, hp, rfl⟩
  exact List.mem_map.mpr ⟨p, (List.mem_filter.mp hp).1, rfl⟩

theorem extract_treatment_closed (t : List Char) :
    extract_treatment t = "Unknown" ∨ ∃ l, l ≠ [] ∧
      (∀ x ∈ l, x ∈ treatmentsTable.map Prod.fst) ∧ extract_treatment t = joinComma l := by
  unfold extract_treatment
  split
  · exact Or.inl rfl
  · rename_i hne
    exact Or.inr ⟨foundLabels treatmentsTable (lowerStr t), hne,
      foundLabels_sub treatmentsTable (lowerStr t), rfl⟩

theorem extract_symptoms_closed (t : List Char) :
    extract_symptoms t = "None specified" ∨ ∃ l, l ≠ [] ∧
      (∀ x ∈ l, x ∈ symptomsTable.map Prod.fst) ∧ extract_symptoms t = joinComma l := by
  unfold extract_symptoms
  split
  · exact Or.inl rfl
  · rename_i hne
    exact Or.inr ⟨foundLabels symptomsTable (lowerStr t), hne,
      foundLabels_sub symptomsTable (lowerStr t), rfl⟩

theorem extract_outcome_closed (t : List Char) :
    extract_outcome t ∈ [("Recovered" : String), "Fatal", "Admitted", "Unknown"] := by
  unfold extract_outcome
  split_ifs <;> simp

theorem extract_g6pd_closed (t : List Char) :
    extract_g6pd_status t ∈ [("Deficient" : String), "Normal", "Mentioned", "Not mentioned"] := by
  unfold extract_g6pd_status
  split_ifs <;> simp

/-! ## Claim C6 -/

/-- C6: every extracted categorical field is drawn from its fixed vocabulary
(or the field's sentinel), never free text: the trigger is a table label or
`Unknown`; treatment and symptoms are comma-joins of non-empty lists of table
labels or their sentinels; outcome and G6PD status come from their four-value
sets. -/
theorem vocabulary_closure (t : List Char) :
    (extract_trigger t = "Unknown" ∨ extract_trigger t ∈ triggersTable.map Prod.fst) ∧
    (extract_treatment t = "Unknown" ∨ ∃ l, l ≠ [] ∧
      (∀ x ∈ l, x ∈ treatmentsTable.map Prod.fst) ∧ extract_treatment t = joinComma l) ∧
    (extract_symptoms t = "None specified" ∨ ∃ l, l ≠ [] ∧
      (∀ x ∈ l, x ∈ symptomsTable.map Prod.fst) ∧ extract_symptoms t = joinComma l) ∧
    extract_outcome t ∈ [("Recovered" : String), "Fatal", "Admitted", "Unknown"] ∧
    extract_g6pd_status t ∈ [("Deficient" : String), "Normal", "Mentioned", "Not mentioned"] :=
  ⟨extract_trigger_closed t, extract_treatment_closed t, extract_symptoms_closed t,
   extract_outcome_closed t, extract_g6pd_closed t⟩

/-! ## Claim C7 -/

/-- C7: on the empty input every field of the record is its unknown sentinel
and the data-quality score is 0. -/
theorem empty_input_all_sentinels (pmid : String) :
    extract_all_features [] pmid =
      { pmid := pmid, meth_level := none, trigger := "Unknown", trigger_route := "Unknown",
        treatment := "Unknown", mb_dose := none, symptoms := "None specified", age := none,
        gender := none, g6pd_status := "Not mentioned", time_to_improvement := none,
        outcome := "Unknown", data_quality_score := 0 } := rfl

/-! ## Claim C8 -/

/-- C8: extraction is a pure function of the input text and identifier —
equal inputs give equal records (the embedding has no other state). -/
theorem extract_deterministic (t1 t2 : List Char) (p1 p2 : String)
    (h1 : t1 = t2) (h2 : p1 = p2) : extract_all_features t1 p1 = extract_all_features t2 p2 := by
  subst h1
  subst h2
  rfl

/-- Witness for C8 at a concrete input. -/
theorem extract_deterministic_witness :
    extract_all_features [] ("a") = extract_all_features [] ("a") :=
  extract_deterministic [] [] ("a") ("a") rfl rfl

/-! ## Claim C9 -/

/-- C9: symptom matching is raw substring containment, so any text containing
`methylene blue` also matches the Cyanosis synonym `blue`, and the symptoms
field (the comma-join of the found labels) includes `Cyanosis`. -/
theorem blue_inside_methylene_blue (t : List Char)
    (h : containsSub ("methylene blue").toList (lowerStr t) = true) :
    ("Cyanosis" : String) ∈ foundLabels symptomsTable (lowerStr t) ∧
    extract_symptoms t = joinComma (foundLabels symptomsTable (lowerStr t)) := by
  have hblue : containsSub ("blue").toList (lowerStr t) = true :=
    containsSub_trans (by decide) h
  have hmem : ("Cyanosis" : String) ∈ foundLabels symptomsTable (lowerStr t) := by
    unfold foundLabels
    refine List.mem_map.mpr
      ⟨(("Cyanosis" : String), ["cyanosis", "cyanotic", "blue", "bluish"]), ?_, rfl⟩
    refine List.mem_filter.mpr ⟨by simp [symptomsTable], ?_⟩
    simp only [List.any_eq_true]
    exact ⟨"blue", by simp, hblue⟩
  refine ⟨hmem, ?_⟩
  unfold extract_symptoms
  rw [if_neg (List.ne_nil_of_mem hmem)]

set_option maxRecDepth 100000 in
/-- Witness for C9 at a concrete text containing `methylene blue`. -/
theorem blue_inside_methylene_blue_witness :
    ("Cyanosis" : String) ∈ foundLabels symptomsTable (lowerStr exT9) ∧
    extract_symptoms exT9 = joinComma (foundLabels symptomsTable (lowerStr exT9)) :=
  blue_inside_methylene_blue exT9 (by decide)

/-! ## Claim C5 -/

set_option maxRecDepth 100000 in
/-- C5 counterexample: on the Example-2 text none of the level patterns
matches `Methemoglobin 38%` (pattern 1 needs a linking word such as
`level`/`was`/`of` between `methemoglobin` and the number), so the extracted
level is not 38 as claimed. -/
theorem example2_meth_level_not_38 :
    (extract_all_features exT5 ("pmid2")).meth_level ≠ some 38 := by decide

set_option maxRecDepth 100000 in
/-- C5 (amended): on the Example-2 text the extractor returns age 34, gender
Male, trigger Dapsone, treatment Methylene Blue, dose `1.5` and outcome
Recovered, but the methemoglobin level is null (no pattern matches). -/
theorem example2_record :
    (extract_all_features exT5 ("pmid2")).age = some 34 ∧
    (extract_all_features exT5 ("pmid2")).gender = some ("Male") ∧
    (extract_all_features exT5 ("pmid2")).trigger = "Dapsone" ∧
    (extract_all_features exT5 ("pmid2")).meth_level = none ∧
    (extract_all_features exT5 ("pmid2")).treatment = "Methylene Blue" ∧
    (extract_all_features exT5 ("pmid2")).mb_dose = some ("1.5") ∧
    (extract_all_features exT5 ("pmid2")).outcome = "Recovered" := by
  refine ⟨by decide, by decide, by decide, by decide, by decide, by decide, by decide⟩

end MetHb
